import Mathlib

/-!
Shallow embedding of the SDP-to-IS-05 translator of nmos-patch-gui
(`js/sdp-parser.js`, class `SDPParser`) and the PATCH status handling of
`js/nmos-api.js` (`patchJSON`).  Strings are modelled as `List Char`;
JavaScript numbers that can be `null` or `NaN` are modelled by `JNum`;
thrown exceptions are modelled by `Option`/`Except` results.
-/

/-- JavaScript whitespace (the WhiteSpace and LineTerminator productions):
used by `String.prototype.trim` and by the regex class `\s`. -/
def isJsSpace (c : Char) : Bool :=
  c = ' ' || c = '\t' || c = '\n' || c = '\r' || c = '\x0b' || c = '\x0c' ||
  c.toNat = 0xa0 || c.toNat = 0xfeff || c.toNat = 0x1680 ||
  (0x2000 ≤ c.toNat && c.toNat ≤ 0x200a) ||
  c.toNat = 0x2028 || c.toNat = 0x2029 || c.toNat = 0x202f ||
  c.toNat = 0x205f || c.toNat = 0x3000

/-- Model of `String.prototype.trim`: strip leading and trailing whitespace. -/
def jsTrim (l : List Char) : List Char :=
  ((l.dropWhile isJsSpace).reverse.dropWhile isJsSpace).reverse

/-- Model of `String.prototype.split` with a one-character separator
(every occurrence splits; empty pieces are kept). -/
def splitOnChar (sep : Char) : List Char → List (List Char)
  | [] => [[]]
  | c :: rest =>
    let r := splitOnChar sep rest
    if c = sep then [] :: r else (c :: r.headD []) :: r.tail

/-- Split at maximal runs of characters satisfying `p`, keeping empty pieces. -/
def splitOnPred (p : Char → Bool) : List Char → List (List Char)
  | [] => [[]]
  | c :: rest =>
    let r := splitOnPred p rest
    if p c then [] :: r else (c :: r.headD []) :: r.tail

/-- Model of `String.prototype.split(/\s+/)` restricted to trimmed input (the only way
the source calls it): the maximal non-whitespace words, in order. -/
def jsSplitWs (l : List Char) : List (List Char) :=
  (splitOnPred isJsSpace l).filter (fun w => w ≠ [])

/-- Model of `String.prototype.startsWith`. -/
def jsStartsWith (p l : List Char) : Bool := p.isPrefixOf l

/-- Model of `String.prototype.toLowerCase` on the ASCII range. -/
def jsToLower (l : List Char) : List Char := l.map Char.toLower

/-- A JavaScript numeric slot that may hold `null`, `NaN` or a number. -/
inductive JNum where
  | null : JNum
  | nan : JNum
  | num (n : Int) : JNum
deriving DecidableEq, Repr

/-- JavaScript truthiness of a `JNum` slot: `null`, `NaN` and `0` are falsy. -/
def jsTruthyNum : JNum → Bool
  | JNum.num n => n ≠ 0
  | _ => false

/-- JavaScript truthiness of a nullable string: `null` and `""` are falsy. -/
def strTruthy : Option (List Char) → Bool
  | some s => s ≠ []
  | none => false

/-- Decimal value of a digit list. -/
def decNatVal (l : List Char) : Nat :=
  l.foldl (fun a c => a * 10 + (c.toNat - '0'.toNat)) 0

/-- Hexadecimal digit test, as in `parseInt`'s radix-16 mode. -/
def isHexDigitJs (c : Char) : Bool :=
  c.isDigit || ('a' ≤ c && c ≤ 'f') || ('A' ≤ c && c ≤ 'F')

/-- Hexadecimal digit value. -/
def hexDigitVal (c : Char) : Nat :=
  if c.isDigit then c.toNat - '0'.toNat
  else if 'a' ≤ c && c ≤ 'f' then c.toNat - 'a'.toNat + 10
  else c.toNat - 'A'.toNat + 10

/-- Hexadecimal value of a digit list. -/
def hexNatVal (l : List Char) : Nat :=
  l.foldl (fun a c => a * 16 + hexDigitVal c) 0

/-- JavaScript `parseInt(s)` with no radix argument: skip leading whitespace,
optional sign, a `0x`/`0X` prefix selects radix 16, otherwise the longest
leading run of decimal digits; no digits gives `NaN`. -/
def jsParseInt (s : List Char) : JNum :=
  let s1 := s.dropWhile isJsSpace
  let sign : Int := match s1 with
    | '-' :: _ => -1
    | _ => 1
  let s2 : List Char := match s1 with
    | '-' :: rest => rest
    | '+' :: rest => rest
    | _ => s1
  match s2 with
  | '0' :: 'x' :: rest =>
    let ds := rest.takeWhile isHexDigitJs
    if ds = [] then JNum.nan else JNum.num (sign * (hexNatVal ds : Int))
  | '0' :: 'X' :: rest =>
    let ds := rest.takeWhile isHexDigitJs
    if ds = [] then JNum.nan else JNum.num (sign * (hexNatVal ds : Int))
  | _ =>
    let ds := s2.takeWhile Char.isDigit
    if ds = [] then JNum.nan else JNum.num (sign * (decNatVal ds : Int))

/-! Line-ending normalization, from `parseToJSON` lines 16-21 of the source:
`replace(/\r\n/g, '\n')`, `replace(/\r/g, '\n')`, `replace(/\n/g, '\r\n')`
and `replace(/\r\n\r\n+/g, '\r\n')`. -/

/-- Model of `replace(/\r\n/g, '\n')`: left-to-right, non-overlapping. -/
def normCrlf : List Char → List Char
  | [] => []
  | [c] => [c]
  | a :: b :: rest =>
    if a = '\r' ∧ b = '\n' then '\n' :: normCrlf rest
    else a :: normCrlf (b :: rest)

/-- Model of `replace(/\r/g, '\n')`. -/
def crToLf (l : List Char) : List Char :=
  l.map (fun c => if c = '\r' then '\n' else c)

/-- Model of `replace(/\n/g, '\r\n')`. -/
def lfToCrlf : List Char → List Char
  | [] => []
  | c :: rest =>
    if c = '\n' then '\r' :: '\n' :: lfToCrlf rest else c :: lfToCrlf rest

/-- Drop a leading run of `'\n'` characters (the greedy `\n+` tail of the
regex `/\r\n\r\n+/`). -/
def dropLfs : List Char → List Char
  | [] => []
  | c :: rest => if c = '\n' then dropLfs rest else c :: rest

/-- Fuelled scanner for `replace(/\r\n\r\n+/g, '\r\n')`: at each position try
to match `\r\n\r\n` followed greedily by more `\n`; on a match emit `\r\n` and
resume after the match, otherwise emit one character and advance.  The fuel is
always at least the list length at the call site, so the `0` case is inert. -/
def collapseCrlfF : Nat → List Char → List Char
  | 0, l => l
  | _ + 1, [] => []
  | fuel + 1, c :: rest =>
    if c = '\r' ∧ jsStartsWith ['\n', '\r', '\n'] rest then
      '\r' :: '\n' :: collapseCrlfF fuel (dropLfs (rest.drop 3))
    else c :: collapseCrlfF fuel rest

/-- Model of `replace(/\r\n\r\n+/g, '\r\n')`. -/
def collapseCrlf (l : List Char) : List Char := collapseCrlfF l.length l

/-- The LF-normalized SDP text used for parsing (source line 17). -/
def normalizeSdp (s : List Char) : List Char := crToLf (normCrlf s)

/-- The CRLF text placed in `transport_file.data` (source lines 20-21). -/
def transportFileDataOf (s : List Char) : List Char :=
  collapseCrlf (lfToCrlf (normalizeSdp s))

/-- Model of `normalizedSdp.split('\n')` (source line 23). -/
def sdpLines (s : List Char) : List (List Char) :=
  splitOnChar '\n' (normalizeSdp s)

/-! The transport-parameter extraction state machine
(`extractTransportParams`, source lines 52-122). -/

/-- One transport block under construction or committed: the object literal
with fields `destination_port`, `multicast_ip`, `source_ip`, `rtp_enabled`. -/
structure Block where
  destination_port : JNum
  multicast_ip : Option (List Char)
  source_ip : Option (List Char)
  rtp_enabled : Bool
deriving DecidableEq, Repr

/-- The fresh block the loop starts from and resets to (source lines 54-59
and 100-105). -/
def emptyBlock : Block :=
  { destination_port := JNum.null, multicast_ip := none,
    source_ip := none, rtp_enabled := true }

/-- JavaScript property assignment `obj[k] = v` on a plain object modelled as
an insertion-ordered association list: an existing key keeps its position and
gets the new value, a new key is appended. -/
def assocSet (l : List (List Char × Block)) (k : List Char) (v : Block) :
    List (List Char × Block) :=
  if l.any (fun p => p.1 = k) then
    l.map (fun p => if p.1 = k then (k, v) else p)
  else l ++ [(k, v)]

/-- JavaScript truthiness of the `currentMid` variable (`null` or a string):
`null` and the empty string are falsy. -/
def midTruthy : Option (List Char) → Bool
  | some m => m ≠ []
  | none => false

/-- The loop state of `extractTransportParams`: committed blocks keyed by
media id, the block under construction, and the current `a=mid:` value. -/
structure ScanState where
  paramBlocks : List (List Char × Block)
  currentBlock : Block
  currentMid : Option (List Char)
deriving DecidableEq, Repr

/-- Initial loop state (source lines 53-60). -/
def initScan : ScanState :=
  { paramBlocks := [], currentBlock := emptyBlock, currentMid := none }

/-- One iteration of the line loop (source lines 62-107). -/
def processLine (st : ScanState) (line : List Char) : ScanState :=
  let trimmed := jsTrim line
  if jsStartsWith ['m', '='] trimmed then
    let parts := jsSplitWs trimmed
    if 2 ≤ parts.length then
      { st with currentBlock :=
          { st.currentBlock with destination_port := jsParseInt (parts.getD 1 []) } }
    else st
  else if jsStartsWith ("c=IN IP4".toList) trimmed then
    let parts := jsSplitWs trimmed
    if 3 ≤ parts.length then
      { st with currentBlock :=
          { st.currentBlock with
              multicast_ip := some ((splitOnChar '/' (parts.getD 2 [])).headD []) } }
    else st
  else if jsStartsWith ("a=source-filter:".toList) trimmed then
    let parts := jsSplitWs trimmed
    if 5 ≤ parts.length then
      { st with currentBlock :=
          { st.currentBlock with source_ip := some (parts.getLastD []) } }
    else st
  else if jsStartsWith ("a=mid:".toList) trimmed then
    let mid := jsToLower (jsTrim ((splitOnChar ':' trimmed).getD 1 []))
    let pb :=
      if (jsTruthyNum st.currentBlock.destination_port &&
          strTruthy st.currentBlock.multicast_ip) && midTruthy st.currentMid then
        assocSet st.paramBlocks (st.currentMid.getD []) st.currentBlock
      else st.paramBlocks
    { paramBlocks := pb, currentBlock := emptyBlock, currentMid := some mid }
  else st

/-- The whole line loop. -/
def scanLines (lines : List (List Char)) : ScanState :=
  lines.foldl processLine initScan

/-- Committing the last block after the loop (source lines 109-112). -/
def finalBlocks (st : ScanState) : List (List Char × Block) :=
  if midTruthy st.currentMid &&
     (jsTruthyNum st.currentBlock.destination_port &&
      strTruthy st.currentBlock.multicast_ip) then
    assocSet st.paramBlocks (st.currentMid.getD []) st.currentBlock
  else st.paramBlocks

/-! Resolution of the transport_params array
(`buildTransportParamsArray`, source lines 127-168). -/

/-- One entry of the emitted `transport_params`: an active leg or the
disabled placeholder `{rtp_enabled: false}`. -/
inductive TransportParam where
  | leg (b : Block) : TransportParam
  | disabled : TransportParam
deriving DecidableEq, Repr

/-- Validity test of `isValidBlock` (source lines 173-177): all three fields
are strictly non-null (`!==`), so `NaN`, `0` and `""` all pass. -/
def isValidBlock (b : Block) : Bool :=
  b.destination_port ≠ JNum.null && b.multicast_ip ≠ none && b.source_ip ≠ none

/-- Key for `paramBlocks.primary`. -/
def kPrimary : List Char := "primary".toList

/-- Key for `paramBlocks.secondary`. -/
def kSecondary : List Char := "secondary".toList

/-- Canonical array-index property names are enumerated first by
`Object.keys`: strings that are the canonical decimal form of an integer in
`[0, 2^32 - 2]`. -/
def isArrayIndexKey (s : List Char) : Bool :=
  s ≠ [] && s.all Char.isDigit && (s = ['0'] || s.headD ' ' ≠ '0') &&
  decNatVal s < 4294967295

/-- Insert a key into a list sorted by ascending numeric value. -/
def insKeyByVal (k : List Char) : List (List Char) → List (List Char)
  | [] => [k]
  | k2 :: rest =>
    if decNatVal k ≤ decNatVal k2 then k :: k2 :: rest
    else k2 :: insKeyByVal k rest

/-- Sort keys by ascending numeric value (insertion sort). -/
def sortKeysByVal (l : List (List Char)) : List (List Char) :=
  l.foldr insKeyByVal []

/-- Model of `Object.keys` on a plain object: array-index keys in ascending
numeric order first, then the remaining keys in insertion order. -/
def jsObjectKeys (pb : List (List Char × Block)) : List (List Char) :=
  let ks := pb.map Prod.fst
  sortKeysByVal (ks.filter isArrayIndexKey) ++
    ks.filter (fun k => !isArrayIndexKey k)

/-- The `{rtp_enabled: false}` tail appended when the receiver has two ports
(source lines 138-140, 146-148, 153-155). -/
def padTail (receiverPortCount : Nat) : List TransportParam :=
  if receiverPortCount = 2 then [TransportParam.disabled] else []

/-- The block stored under the first key enumerated by `Object.keys`
(the `paramBlocks[Object.keys(paramBlocks)[0]]` access of source line 144). -/
def pbFirstEnum (pb : List (List Char × Block)) : Option Block :=
  (jsObjectKeys pb).head?.bind (fun k => pb.lookup k)

/-- Case analysis of `buildTransportParamsArray` before the final port-count
adjustment (source lines 128-160); `none` models the thrown `Error`.  The
case-3 guard of the source is `Object.keys(paramBlocks).length > 0`; here it
is stated as definedness of `pbFirstEnum`, which is equivalent because every
enumerated key has an entry (theorem `pbFirstEnum_isSome_iff` below). -/
def buildCore (pb : List (List Char × Block)) (lastBlock : Block)
    (receiverPortCount : Nat) : Option (List TransportParam) :=
  if h : (pb.lookup kPrimary).isSome ∧ (pb.lookup kSecondary).isSome then
    some [TransportParam.leg ((pb.lookup kPrimary).get h.1),
          TransportParam.leg ((pb.lookup kSecondary).get h.2)]
  else if h : (pb.lookup kPrimary).isSome then
    some (TransportParam.leg ((pb.lookup kPrimary).get h) :: padTail receiverPortCount)
  else if h : (pbFirstEnum pb).isSome then
    some (TransportParam.leg ((pbFirstEnum pb).get h) :: padTail receiverPortCount)
  else if isValidBlock lastBlock then
    some (TransportParam.leg lastBlock :: padTail receiverPortCount)
  else none

/-- Final truncation rule (source lines 162-167). -/
def adjustToPortCount (receiverPortCount : Nat) (params : List TransportParam) :
    List TransportParam :=
  if receiverPortCount = 1 ∧ 1 < params.length then params.take 1 else params

/-- Model of `buildTransportParamsArray` (source lines 127-168). -/
def buildTransportParamsArray (pb : List (List Char × Block)) (lastBlock : Block)
    (receiverPortCount : Nat) : Option (List TransportParam) :=
  (buildCore pb lastBlock receiverPortCount).map (adjustToPortCount receiverPortCount)

/-- Model of `extractTransportParams` (source lines 52-122). -/
def extractTransportParams (lines : List (List Char)) (receiverPortCount : Nat) :
    Option (List TransportParam) :=
  buildTransportParamsArray (finalBlocks (scanLines lines))
    (scanLines lines).currentBlock receiverPortCount

/-! The PATCH body builder (`parseToJSON`, source lines 15-46). -/

/-- The IS-05 PATCH body assembled by `parseToJSON` (source lines 26-39);
the nested `activation.mode` and `transport_file` objects are flattened. -/
structure IS05Body where
  activationMode : List Char
  masterEnable : Bool
  transportFileData : List Char
  transportFileType : List Char
  senderId : Option (List Char)
  transportParams : List TransportParam
deriving DecidableEq, Repr

/-- Model of `parseToJSON` (source lines 15-46); `none` models the exception
propagated from `buildTransportParamsArray`. -/
def parseToJSON (sdpText : List Char) (senderId : Option (List Char))
    (receiverPortCount : Nat) : Option IS05Body :=
  match extractTransportParams (sdpLines sdpText) receiverPortCount with
  | none => none
  | some tps =>
    some { activationMode := "activate_immediate".toList
           masterEnable := true
           transportFileData := transportFileDataOf sdpText
           transportFileType := "application/sdp".toList
           senderId := if strTruthy senderId then senderId else none
           transportParams := tps }

/-! The PATCH status handling (`patchJSON`, `js/nmos-api.js` lines 359-385).
The network exchange is external input here: the function is modelled on the
response it receives. -/

/-- An HTTP response as seen by `patchJSON`: status code, body text and
status text. -/
structure HttpResponse where
  status : Nat
  bodyText : List Char
  statusText : List Char
deriving DecidableEq, Repr

/-- Model of `Response.ok` of the fetch API: status in the range 200-299. -/
def respOk (r : HttpResponse) : Bool :=
  200 ≤ r.status && r.status ≤ 299

/-- The rejection message built on a failed PATCH (source line 374):
the body text when non-empty, otherwise the status text. -/
def patchErrMsg (r : HttpResponse) : List Char :=
  "HTTP ".toList ++ (toString r.status).toList ++ ": ".toList ++
    (if r.bodyText ≠ [] then r.bodyText else r.statusText)

/-- Model of the status handling of `patchJSON` (source lines 372-378):
`Except.error` models the thrown rejection, `Except.ok` the returned status. -/
def patchJSON (r : HttpResponse) : Except (List Char) Nat :=
  if respOk r = false ∧ r.status ≠ 202 then Except.error (patchErrMsg r)
  else Except.ok r.status

/-! Auxiliary predicates on character lists, used to state when the
blank-line-collapsing regex has no match. -/

/-- The list contains a carriage return. -/
def hasCr (l : List Char) : Bool := l.any (fun c => c = '\r')

/-- The list contains two consecutive line feeds (a blank line of the
LF-normalized text). -/
def hasLfLf : List Char → Bool
  | [] => false
  | c :: rest => (decide (c = '\n') && jsStartsWith ['\n'] rest) || hasLfLf rest

/-- The list contains a match of the regex `/\r\n\r\n+/`. -/
def hasCrlfCrlf : List Char → Bool
  | [] => false
  | c :: rest => (decide (c = '\r') && jsStartsWith ['\n', '\r', '\n'] rest) || hasCrlfCrlf rest

/-- Invariant of the committed block collection: every committed block passed
the truthiness test on `destination_port` and `multicast_ip` of source
lines 92 and 110. -/
def PBInv (pb : List (List Char × Block)) : Prop :=
  ∀ p ∈ pb, jsTruthyNum p.2.destination_port = true ∧ strTruthy p.2.multicast_ip = true

/-! Concrete SDP inputs used to evaluate the translator at specific points. -/

/-- ST2110-7 dual-leg SDP with the `a=mid:` tag closing each media block, the
layout of the ST 2110-7 example and of spec Scenario A. -/
def scenarioASdp : List Char :=
  ("m=video 5000 RTP/AVP 96\nc=IN IP4 239.1.1.1/32\n" ++
   "a=source-filter: incl IN IP4 239.1.1.1 192.168.1.10\na=mid:primary\n" ++
   "m=video 5002 RTP/AVP 96\nc=IN IP4 239.1.1.2/32\n" ++
   "a=source-filter: incl IN IP4 239.1.1.2 192.168.1.10\na=mid:secondary").toList

/-- Mid-tagged dual-block SDP carrying no `a=source-filter:` line at all. -/
def noFilterMidSdp : List Char :=
  ("m=video 5004 RTP/AVP 96\nc=IN IP4 239.0.0.1\na=mid:primary\n" ++
   "m=video 5004 RTP/AVP 96\nc=IN IP4 239.0.0.2\na=mid:secondary").toList

/-- Same text as `noFilterMidSdp`, bound separately for the C2 analysis. -/
def noFilterMidSdp2 : List Char :=
  ("m=video 5004 RTP/AVP 96\nc=IN IP4 239.0.0.1\na=mid:primary\n" ++
   "m=video 5004 RTP/AVP 96\nc=IN IP4 239.0.0.2\na=mid:secondary").toList

/-- Single-block SDP with no `a=mid:` line: port, address and source filter
present, so only the last-collected-block fallback can resolve it. -/
def singleLegSdp : List Char :=
  ("m=video 5000 RTP/AVP 96\nc=IN IP4 239.1.1.1/32\n" ++
   "a=source-filter: incl IN IP4 239.1.1.1 192.168.1.10").toList

/-- The active transport leg parsed out of `singleLegSdp`. -/
def singleLegBlock : Block :=
  { destination_port := JNum.num 5000
    multicast_ip := "239.1.1.1".toList
    source_ip := "192.168.1.10".toList
    rtp_enabled := true }

/-- The CRLF form of `singleLegSdp` placed in `transport_file.data`. -/
def singleLegCrlf : List Char :=
  ("m=video 5000 RTP/AVP 96\r\nc=IN IP4 239.1.1.1/32\r\n" ++
   "a=source-filter: incl IN IP4 239.1.1.1 192.168.1.10").toList

/-- SDP with no `a=mid:` and no `a=source-filter:` line anywhere. -/
def noFilterNoMidSdp : List Char :=
  ("v=0\ns=test\nm=video 5000 RTP/AVP 96\nc=IN IP4 239.1.1.1/32").toList

/-- SDP whose only mid tags are the numeric strings `10` and `9`: insertion
order of the committed blocks is `10` before `9`, while `Object.keys`
enumerates the array-index-like keys numerically as `9` before `10`. -/
def numericMidSdp : List Char :=
  ("a=mid:10\nm=video 10 RTP/AVP 96\nc=IN IP4 1.1.1.1\n" ++
   "a=mid:9\nm=video 20 RTP/AVP 96\nc=IN IP4 2.2.2.2").toList

/-- SDP whose only mid tag is `secondary` (tag placed ahead of its data lines
so the block is committed at end of input). -/
def secondaryOnlySdp : List Char :=
  ("a=mid:secondary\nm=video 5000 RTP/AVP 96\nc=IN IP4 239.1.1.1/32").toList

/-- SDP whose only committed tagged leg is `primary`. -/
def primaryOnlySdp : List Char :=
  ("a=mid:primary\nm=video 5000 RTP/AVP 96\nc=IN IP4 239.1.1.1/32").toList

/-- A 204 No Content response to the PATCH. -/
def resp204 : HttpResponse :=
  { status := 204, bodyText := [], statusText := "No Content".toList }

/-- A 404 response to the PATCH whose body text explains the rejection. -/
def resp404 : HttpResponse :=
  { status := 404, bodyText := "busy".toList, statusText := "Not Found".toList }

/-! General lemmas about the embedded definitions. -/

theorem jsTruthyNum_ne_null {j : JNum} (h : jsTruthyNum j = true) : j ≠ JNum.null := by
  cases j <;> simp_all [jsTruthyNum]

theorem strTruthy_ne_none {o : Option (List Char)} (h : strTruthy o = true) : o ≠ none := by
  cases o <;> simp_all [strTruthy]

theorem lookup_mem {pb : List (List Char × Block)} {k : List Char} {b : Block}
    (h : pb.lookup k = some b) : (k, b) ∈ pb := by
  induction pb with
  | nil => simp [List.lookup] at h
  | cons p rest ih =>
    rcases p with ⟨k2, v⟩
    by_cases hk : k = k2
    · subst hk
      simp [List.lookup] at h
      simp [h]
    · have hbeq : (k == k2) = false := beq_eq_false_iff_ne.2 hk
      simp [List.lookup, hbeq] at h
      exact List.mem_cons_of_mem _ (ih h)

theorem PBInv_assocSet {pb : List (List Char × Block)} {k : List Char} {v : Block}
    (h : PBInv pb) (hv1 : jsTruthyNum v.destination_port = true)
    (hv2 : strTruthy v.multicast_ip = true) : PBInv (assocSet pb k v) := by
  unfold assocSet
  split
  · intro p hp
    rcases List.mem_map.1 hp with ⟨q, hq, rfl⟩
    by_cases hqk : q.1 = k
    · simp only [hqk, if_pos rfl]
      exact ⟨hv1, hv2⟩
    · simp only [if_neg hqk]
      exact h q hq
  · intro p hp
    rcases List.mem_append.1 hp with h1 | h1
    · exact h p h1
    · simp only [List.mem_singleton] at h1
      subst h1
      exact ⟨hv1, hv2⟩

theorem processLine_paramBlocks_cases (st : ScanState) (l : List Char) :
    (processLine st l).paramBlocks = st.paramBlocks ∨
    ((processLine st l).paramBlocks =
        assocSet st.paramBlocks (st.currentMid.getD []) st.currentBlock ∧
      jsTruthyNum st.currentBlock.destination_port = true ∧
      strTruthy st.currentBlock.multicast_ip = true) := by
  simp only [processLine]
  split_ifs with h1 h2 h3 h4 h5 h6 h7 h8 <;> try exact Or.inl rfl
  · simp only [Bool.and_eq_true] at h8
    exact Or.inr ⟨rfl, h8.1.1, h8.1.2⟩

theorem PBInv_processLine {st : ScanState} (l : List Char)
    (h : PBInv st.paramBlocks) : PBInv (processLine st l).paramBlocks := by
  rcases processLine_paramBlocks_cases st l with heq | ⟨heq, h1, h2⟩
  · rw [heq]; exact h
  · rw [heq]; exact PBInv_assocSet h h1 h2

theorem PBInv_foldl (lines : List (List Char)) (st : ScanState)
    (h : PBInv st.paramBlocks) : PBInv (lines.foldl processLine st).paramBlocks := by
  induction lines generalizing st with
  | nil => exact h
  | cons a as ih => exact ih _ (PBInv_processLine a h)

theorem PBInv_scanLines (lines : List (List Char)) : PBInv (scanLines lines).paramBlocks := by
  refine PBInv_foldl lines initScan ?_
  intro p hp
  simp [initScan] at hp

theorem PBInv_finalBlocks {st : ScanState} (h : PBInv st.paramBlocks) :
    PBInv (finalBlocks st) := by
  unfold finalBlocks
  split_ifs with hc
  · simp only [Bool.and_eq_true] at hc
    exact PBInv_assocSet h hc.2.1 hc.2.2
  · exact h

theorem processLine_not_mid {st : ScanState} {l : List Char}
    (h : jsStartsWith ("a=mid:".toList) (jsTrim l) = false) :
    (processLine st l).paramBlocks = st.paramBlocks ∧
    (processLine st l).currentMid = st.currentMid := by
  simp only [processLine]
  split_ifs <;> simp_all

theorem foldl_not_mid {lines : List (List Char)} {st : ScanState}
    (h : ∀ l ∈ lines, jsStartsWith ("a=mid:".toList) (jsTrim l) = false) :
    (lines.foldl processLine st).paramBlocks = st.paramBlocks ∧
    (lines.foldl processLine st).currentMid = st.currentMid := by
  induction lines generalizing st with
  | nil => exact ⟨rfl, rfl⟩
  | cons a as ih =>
    have ha := @processLine_not_mid st a (h a (by simp))
    have hrec := @ih (processLine st a) (fun l hl => h l (by simp [hl]))
    exact ⟨hrec.1.trans ha.1, hrec.2.trans ha.2⟩

theorem processLine_source_none {st : ScanState} {l : List Char}
    (hsf : jsStartsWith ("a=source-filter:".toList) (jsTrim l) = false)
    (h0 : st.currentBlock.source_ip = none) :
    (processLine st l).currentBlock.source_ip = none := by
  simp only [processLine]
  split_ifs <;> simp_all [emptyBlock]

theorem foldl_source_none {lines : List (List Char)} {st : ScanState}
    (hsf : ∀ l ∈ lines, jsStartsWith ("a=source-filter:".toList) (jsTrim l) = false)
    (h0 : st.currentBlock.source_ip = none) :
    (lines.foldl processLine st).currentBlock.source_ip = none := by
  induction lines generalizing st with
  | nil => exact h0
  | cons a as ih =>
    exact ih (fun l hl => hsf l (by simp [hl]))
      (processLine_source_none (hsf a (by simp)) h0)

theorem leg_not_mem_padTail (rpc : Nat) (b : Block) :
    TransportParam.leg b ∉ padTail rpc := by
  unfold padTail
  split <;> simp

theorem mem_adjustToPortCount {rpc : Nat} {params : List TransportParam}
    {p : TransportParam} (h : p ∈ adjustToPortCount rpc params) : p ∈ params := by
  unfold adjustToPortCount at h
  split at h
  · exact List.mem_of_mem_take h
  · exact h

theorem adjustToPortCount_one_head (p : TransportParam) (t : List TransportParam) :
    adjustToPortCount 1 (p :: t) = [p] := by
  unfold adjustToPortCount
  cases t <;> simp

theorem adjustToPortCount_ne_one {rpc : Nat} (h : rpc ≠ 1)
    (params : List TransportParam) : adjustToPortCount rpc params = params := by
  unfold adjustToPortCount
  simp [h]

theorem adjustToPortCount_padTail (rpc : Nat) (p : TransportParam) :
    adjustToPortCount rpc (p :: padTail rpc) = p :: padTail rpc := by
  unfold adjustToPortCount padTail
  by_cases h2 : rpc = 2
  · simp [h2]
  · simp [h2]

theorem parseToJSON_inv {s : List Char} {sid : Option (List Char)} {rpc : Nat}
    {body : IS05Body} (h : parseToJSON s sid rpc = some body) :
    ∃ tps, extractTransportParams (sdpLines s) rpc = some tps ∧
      body = { activationMode := "activate_immediate".toList
               masterEnable := true
               transportFileData := transportFileDataOf s
               transportFileType := "application/sdp".toList
               senderId := if strTruthy sid then sid else none
               transportParams := tps } := by
  unfold parseToJSON at h
  cases hE : extractTransportParams (sdpLines s) rpc with
  | none => rw [hE] at h; exact absurd h (by simp)
  | some tps =>
    rw [hE] at h
    injection h with h
    exact ⟨tps, rfl, h.symm⟩

theorem parseToJSON_eq {s : List Char} (sid : Option (List Char)) {rpc : Nat}
    {tps : List TransportParam}
    (hE : extractTransportParams (sdpLines s) rpc = some tps) :
    parseToJSON s sid rpc =
      some { activationMode := "activate_immediate".toList
             masterEnable := true
             transportFileData := transportFileDataOf s
             transportFileType := "application/sdp".toList
             senderId := if strTruthy sid then sid else none
             transportParams := tps } := by
  unfold parseToJSON
  rw [hE]

theorem mem_insKeyByVal {a k : List Char} {l : List (List Char)}
    (h : a ∈ insKeyByVal k l) : a = k ∨ a ∈ l := by
  induction l with
  | nil => simpa [insKeyByVal] using h
  | cons k2 rest ih =>
    unfold insKeyByVal at h
    split_ifs at h
    · simp only [List.mem_cons] at h
      rcases h with h | h
      · exact Or.inl h
      · exact Or.inr (List.mem_cons.2 h)
    · simp only [List.mem_cons] at h
      rcases h with h | h
      · exact Or.inr (by simp [h])
      · rcases ih h with h | h
        · exact Or.inl h
        · exact Or.inr (List.mem_cons_of_mem _ h)

theorem mem_sortKeysByVal {a : List Char} {l : List (List Char)}
    (h : a ∈ sortKeysByVal l) : a ∈ l := by
  induction l with
  | nil => simp [sortKeysByVal] at h
  | cons k rest ih =>
    unfold sortKeysByVal at h ih
    simp only [List.foldr_cons] at h
    rcases mem_insKeyByVal h with h | h
    · simp [h]
    · exact List.mem_cons_of_mem _ (ih h)

theorem lookup_cons_beq_true {k k2 : List Char} {v : Block}
    {rest : List (List Char × Block)} (h : (k == k2) = true) :
    ((k2, v) :: rest).lookup k = some v := by
  conv_lhs => rw [List.lookup]
  rw [h]

theorem lookup_cons_beq_false {k k2 : List Char} {v : Block}
    {rest : List (List Char × Block)} (h : (k == k2) = false) :
    ((k2, v) :: rest).lookup k = rest.lookup k := by
  conv_lhs => rw [List.lookup]
  rw [h]

theorem lookup_isSome_of_mem_fst {pb : List (List Char × Block)} {k : List Char}
    (h : k ∈ pb.map Prod.fst) : (pb.lookup k).isSome := by
  induction pb with
  | nil => simp at h
  | cons p rest ih =>
    rcases p with ⟨k2, v⟩
    simp only [List.map_cons, List.mem_cons] at h
    by_cases hk : k = k2
    · rw [lookup_cons_beq_true (beq_iff_eq.2 hk)]
      rfl
    · rw [lookup_cons_beq_false (beq_eq_false_iff_ne.2 hk)]
      rcases h with h | h
      · exact absurd h hk
      · exact ih h

theorem mem_jsObjectKeys {pb : List (List Char × Block)} {k : List Char}
    (h : k ∈ jsObjectKeys pb) : k ∈ pb.map Prod.fst := by
  unfold jsObjectKeys at h
  rcases List.mem_append.1 h with h | h
  · exact List.mem_of_mem_filter (mem_sortKeysByVal h)
  · exact List.mem_of_mem_filter h

/-- The guard `Object.keys(paramBlocks).length > 0` of source line 143 agrees
with definedness of the accessed entry
`paramBlocks[Object.keys(paramBlocks)[0]]`: an enumerated key always has an
entry. -/
theorem pbFirstEnum_isSome_iff (pb : List (List Char × Block)) :
    (pbFirstEnum pb).isSome ↔ 0 < (jsObjectKeys pb).length := by
  unfold pbFirstEnum
  cases hK : (jsObjectKeys pb).head? with
  | none =>
    have hnil : jsObjectKeys pb = [] := by
      cases hL : jsObjectKeys pb with
      | nil => rfl
      | cons a as => rw [hL] at hK; simp at hK
    simp [hnil]
  | some k =>
    have hk : k ∈ jsObjectKeys pb := by
      cases hL : jsObjectKeys pb with
      | nil => rw [hL] at hK; simp at hK
      | cons a as =>
        rw [hL] at hK
        simp only [List.head?_cons, Option.some.injEq] at hK
        simp [hL, hK]
    have hlen : 0 < (jsObjectKeys pb).length :=
      List.length_pos.2 (by intro hnil; rw [hnil] at hK; simp at hK)
    have hsome := lookup_isSome_of_mem_fst (mem_jsObjectKeys hk)
    simp [hlen, hsome]

theorem buildCore_mem_leg {pb : List (List Char × Block)} {lb : Block} {rpc : Nat}
    {tps : List TransportParam} {b : Block}
    (h : buildCore pb lb rpc = some tps) (hmem : TransportParam.leg b ∈ tps) :
    (∃ k, (k, b) ∈ pb) ∨ (b = lb ∧ isValidBlock lb = true) := by
  unfold buildCore at h
  split_ifs at h with h1 h2 h3 h4
  · injection h with h
    subst h
    simp only [List.mem_cons, List.not_mem_nil, or_false,
      TransportParam.leg.injEq] at hmem
    rcases hmem with rfl | rfl
    · exact Or.inl ⟨kPrimary, lookup_mem (Option.some_get h1.1).symm⟩
    · exact Or.inl ⟨kSecondary, lookup_mem (Option.some_get h1.2).symm⟩
  · injection h with h
    subst h
    simp only [List.mem_cons, TransportParam.leg.injEq] at hmem
    rcases hmem with rfl | hmem
    · exact Or.inl ⟨kPrimary, lookup_mem (Option.some_get h2).symm⟩
    · exact absurd hmem (leg_not_mem_padTail rpc b)
  · injection h with h
    subst h
    simp only [List.mem_cons, TransportParam.leg.injEq] at hmem
    rcases hmem with rfl | hmem
    · have hb : pbFirstEnum pb = some ((pbFirstEnum pb).get h3) :=
        (Option.some_get h3).symm
      unfold pbFirstEnum at hb
      rcases Option.bind_eq_some.1 hb with ⟨k, _, hk2⟩
      exact Or.inl ⟨k, lookup_mem hk2⟩
    · exact absurd hmem (leg_not_mem_padTail rpc b)
  · injection h with h
    subst h
    simp only [List.mem_cons, TransportParam.leg.injEq] at hmem
    rcases hmem with rfl | hmem
    · exact Or.inr ⟨rfl, h4⟩
    · exact absurd hmem (leg_not_mem_padTail rpc b)

theorem buildCore_pairwise (pb : List (List Char × Block)) (lb : Block)
    (r1 r2 : Nat) :
    (buildCore pb lb r1 = none ∧ buildCore pb lb r2 = none) ∨
    ∃ b t1 t2, buildCore pb lb r1 = some (TransportParam.leg b :: t1) ∧
      buildCore pb lb r2 = some (TransportParam.leg b :: t2) := by
  by_cases h1 : (pb.lookup kPrimary).isSome ∧ (pb.lookup kSecondary).isSome
  · exact Or.inr ⟨_, _, _, by unfold buildCore; rw [dif_pos h1],
      by unfold buildCore; rw [dif_pos h1]⟩
  · by_cases h2 : (pb.lookup kPrimary).isSome
    · exact Or.inr ⟨_, _, _, by unfold buildCore; rw [dif_neg h1, dif_pos h2],
        by unfold buildCore; rw [dif_neg h1, dif_pos h2]⟩
    · by_cases h3 : (pbFirstEnum pb).isSome
      · exact Or.inr ⟨_, _, _,
          by unfold buildCore; rw [dif_neg h1, dif_neg h2, dif_pos h3],
          by unfold buildCore; rw [dif_neg h1, dif_neg h2, dif_pos h3]⟩
      · by_cases h4 : isValidBlock lb = true
        · exact Or.inr ⟨_, _, _,
            by unfold buildCore; rw [dif_neg h1, dif_neg h2, dif_neg h3, if_pos h4],
            by unfold buildCore; rw [dif_neg h1, dif_neg h2, dif_neg h3, if_pos h4]⟩
        · exact Or.inl
            ⟨by unfold buildCore; rw [dif_neg h1, dif_neg h2, dif_neg h3, if_neg h4],
             by unfold buildCore; rw [dif_neg h1, dif_neg h2, dif_neg h3, if_neg h4]⟩

/-! Lemmas on the line-ending conversions, leading to the CRLF round-trip. -/

theorem hasCr_crToLf (l : List Char) : hasCr (crToLf l) = false := by
  simp only [hasCr, crToLf, List.any_map, List.any_eq_false, Function.comp]
  intro c _
  by_cases hc : c = '\r' <;> simp [hc]

theorem crToLf_eq_self {l : List Char} (h : hasCr l = false) : crToLf l = l := by
  induction l with
  | nil => rfl
  | cons c rest ih =>
    simp only [hasCr, List.any_cons, Bool.or_eq_false_iff] at h
    have hc : ¬(c = '\r') := by simpa using h.1
    show (if c = '\r' then '\n' else c) :: crToLf rest = c :: rest
    rw [if_neg hc, ih h.2]

theorem lfToCrlf_cons (c : Char) (rest : List Char) :
    lfToCrlf (c :: rest) =
      if c = '\n' then '\r' :: '\n' :: lfToCrlf rest else c :: lfToCrlf rest := rfl

theorem lfToCrlf_ne_nil {l : List Char} (h : l ≠ []) : lfToCrlf l ≠ [] := by
  cases l with
  | nil => exact absurd rfl h
  | cons c rest =>
    unfold lfToCrlf
    split <;> simp

theorem normCrlf_lfToCrlf (l : List Char) (h : hasCr l = false) :
    normCrlf (lfToCrlf l) = l := by
  induction l with
  | nil => rfl
  | cons c rest ih =>
    simp only [hasCr, List.any_cons, Bool.or_eq_false_iff] at h
    have hc : ¬(c = '\r') := by simpa using h.1
    have ihr := ih h.2
    by_cases hn : c = '\n'
    · subst hn
      show normCrlf ('\r' :: '\n' :: lfToCrlf rest) = '\n' :: rest
      simp [normCrlf, ihr]
    · have hstep : lfToCrlf (c :: rest) = c :: lfToCrlf rest := by
        rw [lfToCrlf_cons, if_neg hn]
      rw [hstep]
      cases hx : lfToCrlf rest with
      | nil =>
        have : rest = [] := by
          by_contra hne
          exact lfToCrlf_ne_nil hne hx
        subst this
        rfl
      | cons b xs =>
        have : normCrlf (c :: b :: xs) = c :: normCrlf (b :: xs) := by
          simp only [normCrlf]
          rw [if_neg (fun hh => hc hh.1)]
        rw [this, ← hx, ihr]

theorem lfToCrlf_no_crlf_head {l : List Char} (hcr : hasCr l = false)
    (hn : jsStartsWith ['\n'] l = false) :
    jsStartsWith ['\r', '\n'] (lfToCrlf l) = false := by
  cases l with
  | nil => rfl
  | cons c rest =>
    simp only [hasCr, List.any_cons, Bool.or_eq_false_iff] at hcr
    have hc : ¬(c = '\r') := by simpa using hcr.1
    have hcn : ¬(c = '\n') := by
      intro hh
      subst hh
      simp [jsStartsWith, List.isPrefixOf] at hn
    have hstep : lfToCrlf (c :: rest) = c :: lfToCrlf rest := by
      rw [lfToCrlf_cons, if_neg hcn]
    rw [hstep]
    simp [jsStartsWith, List.isPrefixOf]
    intro hh
    exact absurd hh.symm hc

theorem hasCrlfCrlf_lfToCrlf (l : List Char) (hcr : hasCr l = false)
    (hlf : hasLfLf l = false) : hasCrlfCrlf (lfToCrlf l) = false := by
  induction l with
  | nil => rfl
  | cons c rest ih =>
    simp only [hasCr, List.any_cons, Bool.or_eq_false_iff] at hcr
    have hc : ¬(c = '\r') := by simpa using hcr.1
    simp only [hasLfLf, Bool.or_eq_false_iff, Bool.and_eq_false_iff] at hlf
    have ihr := ih hcr.2 hlf.2
    by_cases hn : c = '\n'
    · subst hn
      have hrest : jsStartsWith ['\n'] rest = false := by
        rcases hlf.1 with h | h
        · simp at h
        · exact h
      show hasCrlfCrlf ('\r' :: '\n' :: lfToCrlf rest) = false
      simp only [hasCrlfCrlf, jsStartsWith, List.isPrefixOf, Bool.or_eq_false_iff,
        Bool.and_eq_false_iff]
      refine ⟨?_, ?_, ?_⟩
      · right
        have := lfToCrlf_no_crlf_head hcr.2 hrest
        simpa [jsStartsWith, List.isPrefixOf] using this
      · left
        simp
      · exact ihr
    · have hstep : lfToCrlf (c :: rest) = c :: lfToCrlf rest := by
        rw [lfToCrlf_cons, if_neg hn]
      rw [hstep]
      simp only [hasCrlfCrlf, Bool.or_eq_false_iff, Bool.and_eq_false_iff]
      exact ⟨Or.inl (by simpa using hc), ihr⟩

theorem collapseCrlfF_eq_self (fuel : Nat) :
    ∀ l : List Char, l.length ≤ fuel → hasCrlfCrlf l = false →
      collapseCrlfF fuel l = l := by
  induction fuel with
  | zero => intro l _ _; rfl
  | succ f ih =>
    intro l hl h
    cases l with
    | nil => rfl
    | cons c rest =>
      simp only [hasCrlfCrlf, Bool.or_eq_false_iff, Bool.and_eq_false_iff] at h
      have hcond : ¬(c = '\r' ∧ jsStartsWith ['\n', '\r', '\n'] rest = true) := by
        rintro ⟨rfl, hpre⟩
        rcases h.1 with hbad | hbad
        · simp at hbad
        · rw [hpre] at hbad; exact absurd hbad (by simp)
      show collapseCrlfF (f + 1) (c :: rest) = c :: rest
      simp only [collapseCrlfF]
      rw [if_neg hcond, ih rest (by simpa using Nat.le_of_succ_le_succ hl) h.2]

theorem collapseCrlf_eq_self {l : List Char} (h : hasCrlfCrlf l = false) :
    collapseCrlf l = l :=
  collapseCrlfF_eq_self l.length l le_rfl h

theorem transportFileDataOf_round_trip {s : List Char}
    (hnb : hasLfLf (normalizeSdp s) = false) :
    normalizeSdp (transportFileDataOf s) = normalizeSdp s := by
  have hcr : hasCr (normalizeSdp s) = false := hasCr_crToLf (normCrlf s)
  unfold transportFileDataOf
  rw [collapseCrlf_eq_self (hasCrlfCrlf_lfToCrlf (normalizeSdp s) hcr hnb)]
  show crToLf (normCrlf (lfToCrlf (normalizeSdp s))) = normalizeSdp s
  rw [normCrlf_lfToCrlf (normalizeSdp s) hcr, crToLf_eq_self hcr]

/-! The claims. -/

/-- C1, counterexample: on a mid-tagged SDP carrying no `a=source-filter:`
line, `parseToJSON` emits an active (non-placeholder) transport param whose
`source_ip` is null, because committing a tagged block (source lines 92, 110)
only requires `destination_port` and `multicast_ip`.  This refutes the claim
that every active param has all three fields non-null. -/
theorem c1_active_param_null_source_counterexample :
    (parseToJSON noFilterMidSdp none 2).map (fun b => b.transportParams) =
      some [TransportParam.leg
              { destination_port := JNum.num 5004
                multicast_ip := some "239.0.0.2".toList
                source_ip := none
                rtp_enabled := true },
            TransportParam.disabled] := by decide

/-- C1 (amended): every active (non-placeholder) entry of the
`transport_params` built by `parseToJSON` has non-null `destination_port` and
non-null `multicast_ip`; the `source_ip` may be null for mid-tagged blocks. -/
theorem c1_active_params_port_address_nonnull (s : List Char)
    (sid : Option (List Char)) (rpc : Nat) (body : IS05Body) (b : Block)
    (h : parseToJSON s sid rpc = some body)
    (hb : TransportParam.leg b ∈ body.transportParams) :
    b.destination_port ≠ JNum.null ∧ b.multicast_ip ≠ none := by
  obtain ⟨tps, hE, rfl⟩ := parseToJSON_inv h
  simp only at hb
  unfold extractTransportParams buildTransportParamsArray at hE
  cases hC : buildCore (finalBlocks (scanLines (sdpLines s)))
      (scanLines (sdpLines s)).currentBlock rpc with
  | none => rw [hC] at hE; exact absurd hE (by simp)
  | some core =>
    rw [hC] at hE
    have hE2 : adjustToPortCount rpc core = tps := by injection hE
    subst hE2
    rcases buildCore_mem_leg hC (mem_adjustToPortCount hb) with ⟨k, hk⟩ | ⟨rfl, hv⟩
    · have hinv := PBInv_finalBlocks (PBInv_scanLines (sdpLines s))
      obtain ⟨h1, h2⟩ := hinv _ hk
      exact ⟨jsTruthyNum_ne_null h1, strTruthy_ne_none h2⟩
    · unfold isValidBlock at hv
      simp only [Bool.and_eq_true, decide_eq_true_eq] at hv
      exact ⟨hv.1.1, hv.1.2⟩

/-- C1 witness: the single-leg SDP resolves through the fallback and its sole
active leg indeed has non-null port and address. -/
theorem c1_active_params_port_address_nonnull_witness :
    singleLegBlock.destination_port ≠ JNum.null ∧
      singleLegBlock.multicast_ip ≠ none :=
  c1_active_params_port_address_nonnull singleLegSdp none 2
    { activationMode := "activate_immediate".toList
      masterEnable := true
      transportFileData := singleLegCrlf
      transportFileType := "application/sdp".toList
      senderId := none
      transportParams := [TransportParam.leg singleLegBlock, TransportParam.disabled] }
    singleLegBlock (by decide) (by decide)

/-- C2, counterexample: an SDP with no `a=source-filter:` line at all (so no
leg satisfies the valid-leg invariant) still translates successfully, because
mid-tagged blocks are committed with only port and address present.  This
refutes the claim that such SDP always fails with the parsing error. -/
theorem c2_no_filter_still_succeeds_counterexample :
    (∀ l ∈ sdpLines noFilterMidSdp2,
        jsStartsWith ("a=source-filter:".toList) (jsTrim l) = false) ∧
    (parseToJSON noFilterMidSdp2 none 2).isSome = true := by decide

/-- C2 (amended): whenever no `a=mid:`-tagged block was committed (the keyed
collection after the final save is empty) and the last in-progress leg fails
the three-field validity check, translation fails with the parsing error —
in particular for any SDP with no `a=mid:` line and no `a=source-filter:`
line, where both hypotheses hold. -/
theorem c2_no_mid_no_filter_fails (s : List Char) (sid : Option (List Char))
    (rpc : Nat)
    (hfb : finalBlocks (scanLines (sdpLines s)) = [])
    (hv : isValidBlock (scanLines (sdpLines s)).currentBlock = false) :
    parseToJSON s sid rpc = none := by
  unfold parseToJSON extractTransportParams buildTransportParamsArray buildCore
  rw [hfb]
  simp [hv, pbFirstEnum, jsObjectKeys, sortKeysByVal]

/-- C2 witness: a plain single-block SDP with neither `a=mid:` nor
`a=source-filter:` lines commits nothing, its last leg has a null
`source_ip`, and it is rejected. -/
theorem c2_no_mid_no_filter_fails_witness :
    parseToJSON noFilterNoMidSdp none 2 = none :=
  c2_no_mid_no_filter_fails noFilterNoMidSdp none 2 (by decide) (by decide)

/-- C3: evaluation at the failing input, the canonical ST2110-7 dual-leg SDP
of spec Scenario A (`a=mid:` tag at the end of each media block).  The code
drops the primary block (committed under no mid), stores the secondary
block's data under the key `primary`, never commits `secondary`, and so emits
a single active leg carrying the secondary leg's port and addresses plus a
disabled placeholder — not the claimed `[primary, secondary]` pair. -/
theorem c3_dual_leg_sdp_eval :
    (finalBlocks (scanLines (sdpLines scenarioASdp))).lookup kSecondary = none ∧
    (parseToJSON scenarioASdp none 2).map (fun b => b.transportParams) =
      some [TransportParam.leg
              { destination_port := JNum.num 5002
                multicast_ip := some "239.1.1.2".toList
                source_ip := some "192.168.1.10".toList
                rtp_enabled := true },
            TransportParam.disabled] := by decide

/-- C4: with `receiverPortCount = 1`, a successful `parseToJSON` emits exactly
one transport param, the first resolved leg — the same leg that heads the
`receiverPortCount = 2` resolution of the same SDP. -/
theorem c4_port_count_one_truncates (s : List Char) (sid : Option (List Char))
    (body : IS05Body) (h : parseToJSON s sid 1 = some body) :
    ∃ b, body.transportParams = [TransportParam.leg b] ∧
      ∀ body2, parseToJSON s sid 2 = some body2 →
        body2.transportParams.head? = some (TransportParam.leg b) := by
  obtain ⟨tps, hE, rfl⟩ := parseToJSON_inv h
  simp only
  unfold extractTransportParams buildTransportParamsArray at hE
  rcases buildCore_pairwise (finalBlocks (scanLines (sdpLines s)))
      (scanLines (sdpLines s)).currentBlock 1 2 with ⟨h1, _⟩ | ⟨b, t1, t2, h1, h2⟩
  · rw [h1] at hE
    exact absurd hE (by simp)
  · rw [h1] at hE
    have hE2 : adjustToPortCount 1 (TransportParam.leg b :: t1) = tps := by
      injection hE
    refine ⟨b, ?_, ?_⟩
    · rw [← hE2, adjustToPortCount_one_head]
    · intro body2 h2'
      obtain ⟨tps2, hE2', rfl⟩ := parseToJSON_inv h2'
      unfold extractTransportParams buildTransportParamsArray at hE2'
      rw [h2] at hE2'
      have : adjustToPortCount 2 (TransportParam.leg b :: t2) = tps2 := by
        injection hE2'
      rw [← this, adjustToPortCount_ne_one (by decide)]
      rfl

/-- C4 witness: the single-leg SDP at port count 1 yields exactly one entry,
matching the head of its port-count-2 resolution. -/
theorem c4_port_count_one_truncates_witness :
    ∃ b, ({ activationMode := "activate_immediate".toList
            masterEnable := true
            transportFileData := singleLegCrlf
            transportFileType := "application/sdp".toList
            senderId := none
            transportParams := [TransportParam.leg singleLegBlock] } :
              IS05Body).transportParams = [TransportParam.leg b] ∧
      ∀ body2, parseToJSON singleLegSdp none 2 = some body2 →
        body2.transportParams.head? = some (TransportParam.leg b) :=
  c4_port_count_one_truncates singleLegSdp none _ (by decide)

/-- C5: when the committed blocks hold a `primary` entry and no `secondary`
entry, `parseToJSON` at `receiverPortCount = 2` emits exactly the primary leg
followed by the `{rtp_enabled: false}` placeholder. -/
theorem c5_primary_only_pads_disabled (s : List Char) (sid : Option (List Char))
    (b : Block)
    (hp : (finalBlocks (scanLines (sdpLines s))).lookup kPrimary = some b)
    (hs : (finalBlocks (scanLines (sdpLines s))).lookup kSecondary = none) :
    ∃ body, parseToJSON s sid 2 = some body ∧
      body.transportParams = [TransportParam.leg b, TransportParam.disabled] := by
  have hE : extractTransportParams (sdpLines s) 2 =
      some [TransportParam.leg b, TransportParam.disabled] := by
    unfold extractTransportParams buildTransportParamsArray buildCore
    simp only [hp, hs]
    simp [padTail, adjustToPortCount]
  exact ⟨_, parseToJSON_eq sid hE, rfl⟩

/-- C5 witness: an SDP committing only a `primary` block resolves at port
count 2 to that leg plus the disabled placeholder. -/
theorem c5_primary_only_pads_disabled_witness :
    ∃ body, parseToJSON primaryOnlySdp none 2 = some body ∧
      body.transportParams =
        [TransportParam.leg
          { destination_port := JNum.num 5000
            multicast_ip := some "239.1.1.1".toList
            source_ip := none
            rtp_enabled := true },
         TransportParam.disabled] :=
  c5_primary_only_pads_disabled primaryOnlySdp none _ (by decide) (by decide)

/-- C6: an SDP with no `a=mid:` line whose accumulated block carries port,
address and source filter resolves through the last-collected-block fallback:
the sole active leg is that block, padded with the disabled placeholder
exactly when `receiverPortCount = 2`. -/
theorem c6_no_mid_fallback (s : List Char) (sid : Option (List Char)) (rpc : Nat)
    (hmid : ∀ l ∈ sdpLines s, jsStartsWith ("a=mid:".toList) (jsTrim l) = false)
    (hvalid : isValidBlock (scanLines (sdpLines s)).currentBlock = true) :
    ∃ body, parseToJSON s sid rpc = some body ∧
      body.transportParams =
        TransportParam.leg (scanLines (sdpLines s)).currentBlock :: padTail rpc := by
  have hscan := @foldl_not_mid (sdpLines s) initScan hmid
  have hfb : finalBlocks (scanLines (sdpLines s)) = [] := by
    unfold finalBlocks
    rw [show (scanLines (sdpLines s)).currentMid = none from hscan.2]
    simpa [midTruthy] using hscan.1
  have hE : extractTransportParams (sdpLines s) rpc =
      some (TransportParam.leg (scanLines (sdpLines s)).currentBlock :: padTail rpc) := by
    unfold extractTransportParams buildTransportParamsArray buildCore
    rw [hfb]
    simp [hvalid, pbFirstEnum, jsObjectKeys, sortKeysByVal, adjustToPortCount_padTail]
  exact ⟨_, parseToJSON_eq sid hE, rfl⟩

/-- C6 witness: the single-leg SDP with no mid tags resolves through the
fallback at port count 2. -/
theorem c6_no_mid_fallback_witness :
    ∃ body, parseToJSON singleLegSdp none 2 = some body ∧
      body.transportParams =
        TransportParam.leg (scanLines (sdpLines singleLegSdp)).currentBlock ::
          padTail 2 :=
  c6_no_mid_fallback singleLegSdp none 2 (by decide) (by decide)

/-- C7, counterexample: a response with status 204 — neither 200 nor 202 — is
returned as success by `patchJSON`, because the code accepts every status for
which `response.ok` holds, i.e. the whole 200-299 range.  This refutes the
claim that exactly 200 and 202 are treated as success. -/
theorem c7_status_204_ok_counterexample :
    ((204 : Nat) ≠ 200 ∧ (204 : Nat) ≠ 202) ∧
      patchJSON resp204 = Except.ok 204 := ⟨by decide, rfl⟩

/-- C7 (amended): `patchJSON` succeeds exactly on `response.ok` (status
200-299, which subsumes 202); on any other status it raises an error message
that carries the response body text (or the status text when the body is
empty). -/
theorem c7_patch_status_handling (r : HttpResponse) :
    (respOk r = true ∨ r.status = 202 → patchJSON r = Except.ok r.status) ∧
    (respOk r = false → r.status ≠ 202 →
      patchJSON r = Except.error (patchErrMsg r) ∧
        (r.bodyText ≠ [] → r.bodyText <:+ patchErrMsg r)) := by
  constructor
  · intro h
    rcases h with h | h
    · simp [patchJSON, h]
    · simp [patchJSON, h]
  · intro h1 h2
    refine ⟨by simp [patchJSON, h1, h2], ?_⟩
    intro hne
    unfold patchErrMsg
    rw [if_pos hne]
    simpa [List.append_assoc] using
      List.suffix_append
        ("HTTP ".toList ++ (toString r.status).toList ++ ": ".toList) r.bodyText

/-- C7 witness: the 404 response is rejected with its body text preserved as
a suffix of the raised message. -/
theorem c7_patch_status_handling_witness :
    patchJSON resp404 = Except.error (patchErrMsg resp404) ∧
      (resp404.bodyText ≠ [] → resp404.bodyText <:+ patchErrMsg resp404) :=
  (c7_patch_status_handling resp404).2 (by decide) (by decide)

/-- C8: every body built by `parseToJSON` fixes `activation.mode` to
`activate_immediate`, `master_enable` to `true`, `transport_file.type` to
`application/sdp`, and carries `sender_id` exactly when the caller supplied a
non-empty sender id. -/
theorem c8_body_fixed_fields (s : List Char) (sid : Option (List Char))
    (rpc : Nat) (body : IS05Body) (h : parseToJSON s sid rpc = some body) :
    body.activationMode = "activate_immediate".toList ∧
    body.masterEnable = true ∧
    body.transportFileType = "application/sdp".toList ∧
    body.senderId = (if strTruthy sid then sid else none) ∧
    (body.senderId ≠ none ↔ ∃ v, sid = some v ∧ v ≠ []) := by
  obtain ⟨tps, hE, rfl⟩ := parseToJSON_inv h
  refine ⟨rfl, rfl, rfl, rfl, ?_⟩
  cases sid with
  | none => simp [strTruthy]
  | some v =>
    by_cases hv : v = []
    · subst hv
      simp [strTruthy]
    · simp [strTruthy, hv]

/-- C8 witness: the single-leg SDP with a non-empty sender id produces a body
carrying that id and the fixed fields. -/
theorem c8_body_fixed_fields_witness :
    ({ activationMode := "activate_immediate".toList
       masterEnable := true
       transportFileData := singleLegCrlf
       transportFileType := "application/sdp".toList
       senderId := some "abc123".toList
       transportParams :=
         [TransportParam.leg singleLegBlock, TransportParam.disabled] } :
           IS05Body).activationMode = "activate_immediate".toList ∧
    ({ activationMode := "activate_immediate".toList
       masterEnable := true
       transportFileData := singleLegCrlf
       transportFileType := "application/sdp".toList
       senderId := some "abc123".toList
       transportParams :=
         [TransportParam.leg singleLegBlock, TransportParam.disabled] } :
           IS05Body).masterEnable = true ∧
    ({ activationMode := "activate_immediate".toList
       masterEnable := true
       transportFileData := singleLegCrlf
       transportFileType := "application/sdp".toList
       senderId := some "abc123".toList
       transportParams :=
         [TransportParam.leg singleLegBlock, TransportParam.disabled] } :
           IS05Body).transportFileType = "application/sdp".toList ∧
    ({ activationMode := "activate_immediate".toList
       masterEnable := true
       transportFileData := singleLegCrlf
       transportFileType := "application/sdp".toList
       senderId := some "abc123".toList
       transportParams :=
         [TransportParam.leg singleLegBlock, TransportParam.disabled] } :
           IS05Body).senderId =
      (if strTruthy (some "abc123".toList) then some "abc123".toList else none) ∧
    (({ activationMode := "activate_immediate".toList
        masterEnable := true
        transportFileData := singleLegCrlf
        transportFileType := "application/sdp".toList
        senderId := some "abc123".toList
        transportParams :=
          [TransportParam.leg singleLegBlock, TransportParam.disabled] } :
            IS05Body).senderId ≠ none ↔
      ∃ v, some "abc123".toList = some v ∧ v ≠ []) :=
  c8_body_fixed_fields singleLegSdp (some "abc123".toList) 2 _ (by decide)

/-- C9: when the LF-normalized input has no consecutive line feeds (so the
blank-line collapse the claim sets aside does not fire), renormalizing the
emitted `transport_file.data` from CRLF back to LF reproduces exactly the
LF-normalized text that was parsed. -/
theorem c9_crlf_round_trip (s : List Char) (sid : Option (List Char))
    (rpc : Nat) (body : IS05Body) (h : parseToJSON s sid rpc = some body)
    (hnb : hasLfLf (normalizeSdp s) = false) :
    normalizeSdp body.transportFileData = normalizeSdp s := by
  obtain ⟨tps, hE, rfl⟩ := parseToJSON_inv h
  exact transportFileDataOf_round_trip hnb

/-- C9 witness: the single-leg SDP has no blank lines and its emitted CRLF
data renormalizes to the parsed LF text. -/
theorem c9_crlf_round_trip_witness :
    normalizeSdp
      ({ activationMode := "activate_immediate".toList
         masterEnable := true
         transportFileData := singleLegCrlf
         transportFileType := "application/sdp".toList
         senderId := none
         transportParams :=
           [TransportParam.leg singleLegBlock, TransportParam.disabled] } :
             IS05Body).transportFileData = normalizeSdp singleLegSdp :=
  c9_crlf_round_trip singleLegSdp none 2 _ (by decide) (by decide)

/-- C10, counterexample: with the numeric mids `10` (committed first) and `9`
(committed second), `Object.keys` enumerates `9` before `10`, so the resolver
emits the block of mid `9` — not the first committed block.  This refutes the
claim that the first committed block is always the one emitted. -/
theorem c10_first_committed_not_emitted_counterexample :
    finalBlocks (scanLines (sdpLines numericMidSdp)) =
      [("10".toList,
        { destination_port := JNum.num 10
          multicast_ip := some "1.1.1.1".toList
          source_ip := none
          rtp_enabled := true }),
       ("9".toList,
        { destination_port := JNum.num 20
          multicast_ip := some "2.2.2.2".toList
          source_ip := none
          rtp_enabled := true })] ∧
    (parseToJSON numericMidSdp none 2).map (fun b => b.transportParams) =
      some [TransportParam.leg
              { destination_port := JNum.num 20
                multicast_ip := some "2.2.2.2".toList
                source_ip := none
                rtp_enabled := true },
            TransportParam.disabled] := ⟨by decide, by decide⟩

/-- C10 (amended): when no `primary` block was committed but some block was,
translation does not fail: the block stored under the first key in JavaScript
object enumeration order (array-index-like mids numerically ascending first,
then insertion order) is emitted as the sole active leg, padded with the
disabled placeholder exactly when `receiverPortCount = 2`. -/
theorem c10_non_primary_mid_resolution (s : List Char) (sid : Option (List Char))
    (rpc : Nat) (k : List Char) (b : Block)
    (hp : (finalBlocks (scanLines (sdpLines s))).lookup kPrimary = none)
    (hk : (jsObjectKeys (finalBlocks (scanLines (sdpLines s)))).head? = some k)
    (hb : (finalBlocks (scanLines (sdpLines s))).lookup k = some b) :
    ∃ body, parseToJSON s sid rpc = some body ∧
      body.transportParams = TransportParam.leg b :: padTail rpc := by
  have hfe : pbFirstEnum (finalBlocks (scanLines (sdpLines s))) = some b := by
    unfold pbFirstEnum
    rw [hk]
    simpa using hb
  have hE : extractTransportParams (sdpLines s) rpc =
      some (TransportParam.leg b :: padTail rpc) := by
    unfold extractTransportParams buildTransportParamsArray buildCore
    simp only [hp, hfe]
    rw [dif_neg (fun hc => absurd hc.1 (by decide)),
      dif_neg (by decide), dif_pos (by rfl)]
    simp [adjustToPortCount_padTail]
  exact ⟨_, parseToJSON_eq sid hE, rfl⟩

/-- C10 witness: an SDP whose only mid tag is `secondary` resolves to that
block as the sole active leg plus the disabled placeholder at port count 2. -/
theorem c10_non_primary_mid_resolution_witness :
    ∃ body, parseToJSON secondaryOnlySdp none 2 = some body ∧
      body.transportParams =
        TransportParam.leg
          { destination_port := JNum.num 5000
            multicast_ip := some "239.1.1.1".toList
            source_ip := none
            rtp_enabled := true } :: padTail 2 :=
  c10_non_primary_mid_resolution secondaryOnlySdp none 2 ("secondary".toList) _
    (by decide) (by decide) (by decide)
